import Mathlib

/-!
Shallow embedding of `internal/logger/logger.go` from the file-upload-service
repository, together with the slog-library behaviour the package relies on.

Modelling conventions:
* `slog.Level` is the four-valued enum with its numeric coding
  (Debug = -4, Info = 0, Warn = 4, Error = 8); `Handler.Enabled`
  compares the record level against the configured minimum level.
* `slog.Attr` values in this package are always textual
  (`slog.String` is the only constructor used on the paths the claims
  touch), so an attribute is a key/value pair of strings.
* `context.Context` is an association list of typed keys to values;
  `context.WithValue` prepends and `Context.value` returns the most
  recently stored binding, which is exactly Go's child-first lookup.
  Keys carry their dynamic Go type: the unexported `ctxKey` string type
  of the logger package is a different constructor from a bare `string`
  key, so the two never compare equal, as in Go interface equality.
* Nondeterministic inputs of the real runtime are explicit parameters:
  `now` is the timestamp the handler would stamp on the record,
  `uuid` is the value of `uuid.New().String()`, and `stackText` is the
  text `runtime.Stack` wrote into the 4096-byte buffer (the Go runtime
  always writes at least the goroutine header, so callers may assume it
  is non-empty).
* Emission is modelled by returning the record (or `none` when the
  handler suppresses it) instead of writing bytes to stdout;
  `os.Exit(1)` is modelled by an `exitCode` field in the outcome of
  `Fatal`.
-/

namespace UploadService

/-- slog severity levels used by the package. -/
inductive Level where
  | debug
  | info
  | warn
  | error
deriving DecidableEq, Repr

/-- Numeric coding of slog levels: Debug = -4, Info = 0, Warn = 4, Error = 8. -/
def Level.toInt : Level → Int
  | .debug => -4
  | .info => 0
  | .warn => 4
  | .error => 8

/-- A slog attribute as used by this package: a string key with a string value. -/
structure Attr where
  key : String
  value : String
deriving DecidableEq, Repr

/-- Dynamic type of a context key. `loggerKey` is the unexported `ctxKey`
string type of the logger package; `stringKey` is a bare `string` a caller
might use; `otherKey` stands for any other key type. Distinct constructors
never compare equal, mirroring Go interface equality on distinct types. -/
inductive CtxKey where
  | loggerKey (s : String)
  | stringKey (s : String)
  | otherKey (n : Nat)
deriving DecidableEq, Repr

/-- Dynamic type of a value stored in a context: either a `string` or a
value of some other dynamic type (for which the `.(string)` assertion fails). -/
inductive CtxVal where
  | str (s : String)
  | other (n : Nat)
deriving DecidableEq, Repr

/-- context.Context as an association list, most recently stored pair first. -/
def Context := List (CtxKey × CtxVal)

/-- context.Background(): the empty context. -/
def Context.background : Context := []

/-- context.WithValue: derive a context with one extra binding. -/
def Context.withValue (ctx : Context) (k : CtxKey) (v : CtxVal) : Context :=
  (k, v) :: ctx

/-- ctx.Value(k): child-first lookup, `none` when the key was never set. -/
def Context.value : Context → CtxKey → Option CtxVal
  | [], _ => none
  | (k2, v) :: rest, k => if k2 = k then some v else Context.value rest k

/-- RequestIDKey: the constant `RequestIDKey ctxKey = "request_id"`
(logger.go line 16), of the unexported `ctxKey` type. -/
def RequestIDKey : CtxKey := .loggerKey "request_id"

/-- Output encoding chosen by `New`: JSON handler or text handler. -/
inductive Encoding where
  | json
  | text
deriving DecidableEq, Repr

/-- The Logger wrapper: the environment string captured by the handler's
ReplaceAttr closure, the chosen encoding, the configured minimum level, and
the attributes bound so far via `With`. -/
structure Logger where
  env : String
  encoding : Encoding
  minLevel : Level
  boundAttrs : List Attr
deriving DecidableEq, Repr

/-- The ReplaceAttr closure built in `New` (logger.go lines 28-34): drop the
attribute (return the empty `slog.Attr`, which the handler elides) exactly
when the environment is "development" and the key is "time"; otherwise keep
the attribute unchanged. -/
def keepAttr (env : String) (a : Attr) : Option Attr :=
  if env = "development" ∧ a.key = "time" then none else some a

/-- New (logger.go lines 23-46): pick the JSON handler when the environment
is "production" and the text handler otherwise, configured with the given
minimum level and the ReplaceAttr closure; the fresh wrapper has no bound
attributes. -/
def New (env : String) (level : Level) : Logger :=
  { env := env
    encoding := if env = "production" then .json else .text
    minLevel := level
    boundAttrs := [] }

/-- slog's Logger.With in this package: bind one more attribute; the result
is a new value, the receiver is unchanged. -/
def Logger.With (l : Logger) (a : Attr) : Logger :=
  { l with boundAttrs := l.boundAttrs ++ [a] }

/-- Handler.Enabled: slog's built-in JSON and text handlers compare the
record level against the configured minimum and ignore the context. -/
def Logger.enabled (l : Logger) (_ctx : Context) (lv : Level) : Bool :=
  decide (l.minLevel.toInt ≤ lv.toInt)

/-- One emitted log record: the built-in time field (absent when ReplaceAttr
dropped it), the built-in level and msg fields, and the attribute list
(bound attributes first, then call-site attributes, each passed through
ReplaceAttr). -/
structure Record where
  time : Option String
  level : Level
  msg : String
  attrs : List Attr
deriving DecidableEq, Repr

/-- Whether the emitted line carries a `time` key, either as the built-in
time field or as an ordinary attribute named "time". -/
def Record.hasTimeKey (r : Record) : Bool :=
  r.time.isSome || r.attrs.any (fun a => a.key = "time")

/-- slog's Logger.LogAttrs through the handler built by `New`: suppress the
record when the level is below the minimum, otherwise emit the built-in
fields and the bound plus call-site attributes, every field passed through
the ReplaceAttr closure. `now` is the timestamp the handler would stamp. -/
def Logger.logAttrs (l : Logger) (now : String) (lv : Level) (msg : String)
    (callAttrs : List Attr) : Option Record :=
  if l.enabled Context.background lv then
    some { time := Option.map Attr.value (keepAttr l.env (Attr.mk "time" now))
           level := lv
           msg := msg
           attrs := (l.boundAttrs ++ callAttrs).filterMap (keepAttr l.env) }
  else none

/-- WithRequestID (logger.go lines 48-54): generate a correlation id
(`uuid` stands for the value of `uuid.New().String()`), store it in the
context under `RequestIDKey`, and return the derived context together with
a derived wrapper that binds it as the `request_id` attribute. -/
def Logger.WithRequestID (l : Logger) (ctx : Context) (uuid : String) :
    Context × Logger :=
  let ctx2 := ctx.withValue RequestIDKey (.str uuid)
  (ctx2, l.With (Attr.mk "request_id" uuid))

/-- GetRequestID (logger.go lines 56-62): look the value up under
`RequestIDKey` and return it when the `.(string)` type assertion succeeds;
otherwise return the empty string. Total, hence never panics. -/
def GetRequestID (ctx : Context) : String :=
  match ctx.value RequestIDKey with
  | some (.str s) => s
  | _ => ""

/-- Logger.Error (logger.go lines 64-76). When `err` is non-nil append an
`error` attribute with its message text and, only when debug level is
enabled on this logger, capture the stack (`stackText` is what
`runtime.Stack` wrote, truncated to 4096 bytes) and append it as a `stack`
attribute; then emit at error level. The second component reports whether
the stack-capture branch executed. -/
def Logger.Error (l : Logger) (now stackText : String) (msg : String)
    (err : Option String) (attrs : List Attr) : Option Record × Bool :=
  match err with
  | some e =>
      let attrs1 := attrs ++ [Attr.mk "error" e]
      if l.enabled Context.background .debug then
        (l.logAttrs now .error msg (attrs1 ++ [Attr.mk "stack" stackText]), true)
      else
        (l.logAttrs now .error msg attrs1, false)
  | none => (l.logAttrs now .error msg attrs, false)

/-- Outcome of a Fatal call: the emitted record, whether the stack-capture
branch ran, and the process exit status (`some 1` models `os.Exit(1)`). -/
structure FatalOutcome where
  record : Option Record
  stackCaptured : Bool
  exitCode : Option Nat
deriving DecidableEq, Repr

/-- Logger.Fatal (logger.go lines 78-81): run Error with the same arguments,
then terminate the process with status 1. -/
def Logger.Fatal (l : Logger) (now stackText : String) (msg : String)
    (err : Option String) (attrs : List Attr) : FatalOutcome :=
  let e := l.Error now stackText msg err attrs
  { record := e.1, stackCaptured := e.2, exitCode := some 1 }

/-- WithComponent (logger.go lines 83-85): bind a `component` attribute. -/
def Logger.WithComponent (l : Logger) (component : String) : Logger :=
  l.With (Attr.mk "component" component)

/-- WithOperation (logger.go lines 87-89): bind an `operation` attribute. -/
def Logger.WithOperation (l : Logger) (operation : String) : Logger :=
  l.With (Attr.mk "operation" operation)

/-- An Error call as made from a request handler that holds a
request-scoped context: the context is in scope at the call site, but
`Error` neither receives nor reads it — internally it uses
`context.Background()` for both the enablement check and the emission
(logger.go lines 68 and 75). -/
def errorRun (reqCtx : Context) (l : Logger) (now stackText : String)
    (msg : String) (err : Option String) (attrs : List Attr) :
    Option Record × Bool :=
  let _ := reqCtx
  l.Error now stackText msg err attrs

/-- A Fatal call as made from a request handler that holds a
request-scoped context; as with `errorRun`, the context is never read. -/
def fatalRun (reqCtx : Context) (l : Logger) (now stackText : String)
    (msg : String) (err : Option String) (attrs : List Attr) : FatalOutcome :=
  let _ := reqCtx
  l.Fatal now stackText msg err attrs

/-! Helper lemmas about the ReplaceAttr closure and record emission. -/

/-- Unfolding of the context lookup on a non-empty context. -/
theorem Context.value_cons (k2 : CtxKey) (v : CtxVal) (rest : Context)
    (k : CtxKey) :
    Context.value ((k2, v) :: rest) k =
      if k2 = k then some v else Context.value rest k := rfl

/-- The ReplaceAttr closure never rewrites an attribute: it either keeps it
unchanged or drops it. -/
theorem keepAttr_eq_some {env : String} {a b : Attr}
    (h : keepAttr env a = some b) : b = a := by
  unfold keepAttr at h
  split at h
  · exact absurd h (by simp)
  · exact (Option.some.inj h).symm

/-- Attributes whose key is not "time" always survive ReplaceAttr. -/
theorem keepAttr_of_key_ne {env : String} {a : Attr} (h : a.key ≠ "time") :
    keepAttr env a = some a := by
  unfold keepAttr
  rw [if_neg]
  rintro ⟨-, hk⟩
  exact h hk

/-- Membership in the post-ReplaceAttr attribute list is membership in the
original list of an attribute that ReplaceAttr keeps. -/
theorem mem_filterMap_keepAttr {env : String} {L : List Attr} {b : Attr} :
    b ∈ L.filterMap (keepAttr env) ↔ b ∈ L ∧ keepAttr env b = some b := by
  rw [List.mem_filterMap]
  constructor
  · rintro ⟨a, ha, hk⟩
    obtain rfl := keepAttr_eq_some hk
    exact ⟨ha, hk⟩
  · rintro ⟨hb, hk⟩
    exact ⟨b, hb, hk⟩

/-- On a list with no "time"-keyed attribute, ReplaceAttr is the identity. -/
theorem filterMap_keepAttr_id {env : String} {L : List Attr}
    (h : ∀ a ∈ L, a.key ≠ "time") : L.filterMap (keepAttr env) = L := by
  induction L with
  | nil => rfl
  | cons a L ih =>
    rw [List.filterMap_cons, keepAttr_of_key_ne (h a (by simp))]
    rw [ih (fun x hx => h x (by simp [hx]))]

/-- In the development environment no attribute that survives ReplaceAttr
has the key "time". -/
theorem key_ne_time_of_mem_filterMap_dev {L : List Attr} {b : Attr}
    (h : b ∈ L.filterMap (keepAttr "development")) : b.key ≠ "time" := by
  obtain ⟨-, hk⟩ := mem_filterMap_keepAttr.mp h
  intro htime
  unfold keepAttr at hk
  rw [if_pos ⟨rfl, htime⟩] at hk
  exact Option.noConfusion hk

/-- Every attribute of an emitted record was bound on the wrapper or passed
at the call site. -/
theorem mem_of_mem_logAttrs {l : Logger} {now msg : String} {lv : Level}
    {callAttrs : List Attr} {r : Record}
    (h : l.logAttrs now lv msg callAttrs = some r) :
    ∀ a ∈ r.attrs, a ∈ l.boundAttrs ++ callAttrs := by
  unfold Logger.logAttrs at h
  split at h
  · obtain rfl := Option.some.inj h
    intro a ha
    exact (mem_filterMap_keepAttr.mp ha).1
  · exact Option.noConfusion h

/-- An emitted record carries the level it was logged at. -/
theorem logAttrs_level {l : Logger} {now msg : String} {lv : Level}
    {callAttrs : List Attr} {r : Record}
    (h : l.logAttrs now lv msg callAttrs = some r) : r.level = lv := by
  unfold Logger.logAttrs at h
  split at h
  · obtain rfl := Option.some.inj h
    rfl
  · exact Option.noConfusion h

/-- At any minimum level, an error-level record passes the level filter. -/
theorem logAttrs_error_isSome (l : Logger) (now msg : String)
    (callAttrs : List Attr) :
    (l.logAttrs now Level.error msg callAttrs).isSome = true := by
  unfold Logger.logAttrs Logger.enabled
  rw [if_pos]
  · rfl
  · cases h : l.minLevel <;> simp [h, Level.toInt]

/-- Reduction of Error at a nil err: no attribute is added and the
stack-capture branch does not run. -/
theorem Error_none (l : Logger) (now stk msg : String) (attrs : List Attr) :
    l.Error now stk msg none attrs =
      (l.logAttrs now Level.error msg attrs, false) := rfl

/-- Reduction of Error at a non-nil err: the `error` attribute is appended
and the stack is captured exactly when debug level is enabled. -/
theorem Error_some (l : Logger) (now stk msg e : String) (attrs : List Attr) :
    l.Error now stk msg (some e) attrs =
      (if l.enabled Context.background Level.debug then
        (l.logAttrs now Level.error msg
          (attrs ++ [Attr.mk "error" e] ++ [Attr.mk "stack" stk]), true)
      else
        (l.logAttrs now Level.error msg
          (attrs ++ [Attr.mk "error" e]), false)) := rfl

/-! Claim C1: time-key policy by environment. -/

/-- C1 counterexample: "staging" is an environment value other than
"production", yet the logger built for it emits records that carry a `time`
key — the ReplaceAttr closure only strips `time` when the environment is
exactly "development" (logger.go line 29), so the claim's "for every
environment value other than production no emitted line contains a time
key" fails at env = "staging". -/
theorem staging_record_carries_time_key :
    ("staging" = "production") = False ∧
    (New "staging" Level.info).encoding = Encoding.text ∧
    (New "staging" Level.info).logAttrs "2026-01-01T00:00:00Z" Level.info
        "hello" [] =
      some (Record.mk (some "2026-01-01T00:00:00Z") Level.info "hello" []) ∧
    (Record.mk (some "2026-01-01T00:00:00Z") Level.info "hello"
        []).hasTimeKey = true := by
  refine ⟨by simp, by rfl, by rfl, by rfl⟩

/-- C1 (amended): every record emitted by a logger built for the
"production" environment carries the built-in `time` field (and the handler
is the JSON one); no record emitted by a logger built for the
"development" environment carries a `time` key; and for every other
environment value the handler is the text one (as for every non-production
environment) but the `time` field is kept on every emitted record. -/
theorem time_key_policy (env : String) (lv lv2 : Level) (now msg : String)
    (attrs : List Attr) (r : Record)
    (h : (New env lv).logAttrs now lv2 msg attrs = some r) :
    (env = "production" →
      (New env lv).encoding = Encoding.json ∧ r.time = some now) ∧
    (env ≠ "production" → (New env lv).encoding = Encoding.text) ∧
    (env = "development" → r.hasTimeKey = false) ∧
    (env ≠ "production" → env ≠ "development" → r.time = some now) := by
  unfold Logger.logAttrs at h
  split at h
  · obtain rfl := Option.some.inj h
    refine ⟨?_, ?_, ?_, ?_⟩
    · rintro rfl
      refine ⟨by rfl, ?_⟩
      have ht : keepAttr "production" (Attr.mk "time" now) =
          some (Attr.mk "time" now) := by
        unfold keepAttr
        rw [if_neg]
        rintro ⟨h1, -⟩
        exact absurd h1 (by decide)
      show Option.map Attr.value (keepAttr "production"
        (Attr.mk "time" now)) = some now
      rw [ht]
      rfl
    · intro hne
      show (if env = "production" then Encoding.json else Encoding.text) =
        Encoding.text
      rw [if_neg hne]
    · rintro rfl
      have ht : keepAttr "development" (Attr.mk "time" now) = none := by
        unfold keepAttr
        rw [if_pos ⟨rfl, rfl⟩]
      show (Record.mk
          (Option.map Attr.value (keepAttr "development" (Attr.mk "time" now)))
          lv2 msg
          (((New "development" lv).boundAttrs ++ attrs).filterMap
            (keepAttr "development"))).hasTimeKey = false
      unfold Record.hasTimeKey
      rw [ht]
      simp only [Option.map_none', Option.isSome_none, Bool.false_or]
      rw [List.any_eq_false]
      intro a ha
      simpa using key_ne_time_of_mem_filterMap_dev ha
    · intro _ hnd
      have ht : keepAttr env (Attr.mk "time" now) =
          some (Attr.mk "time" now) := by
        unfold keepAttr
        rw [if_neg]
        rintro ⟨h1, -⟩
        exact hnd h1
      show Option.map Attr.value (keepAttr env (Attr.mk "time" now)) =
        some now
      rw [ht]
      rfl
  · exact Option.noConfusion h

/-- C1 witness: the amended theorem evaluated at a production, a
development, and a staging logger on concrete inputs. -/
theorem time_key_policy_witness :
    ((New "production" Level.info).encoding = Encoding.json ∧
      (Record.mk (some "t0") Level.error "m" []).time = some "t0") ∧
    (Record.mk none Level.error "m" []).hasTimeKey = false ∧
    (New "staging" Level.info).encoding = Encoding.text ∧
    (Record.mk (some "t0") Level.error "m" []).time = some "t0" := by
  refine ⟨?_, ?_, ?_, ?_⟩
  · exact (time_key_policy "production" Level.info Level.error "t0" "m" [] _
      (by rfl)).1 rfl
  · exact (time_key_policy "development" Level.info Level.error "t0" "m" [] _
      (by rfl)).2.2.1 rfl
  · exact (time_key_policy "staging" Level.info Level.error "t0" "m" [] _
      (by rfl)).2.1 (by decide)
  · exact (time_key_policy "staging" Level.info Level.error "t0" "m" [] _
      (by rfl)).2.2.2 (by decide) (by decide)

/-! Claims C2 and C3: the stack-capture branch of Error. -/

/-- C2: on a logger whose minimum level is Info, every Error call emits a
record (error level passes the Info filter), the stack-capture branch never
executes, and the emitted record carries no `stack` attribute — for every
err, nil or not, and every attribute list (the bound and call-site
attributes are assumed not to smuggle in a key named "stack" themselves,
which the package's own combinators never produce). -/
theorem info_level_error_never_captures_stack (l : Logger)
    (now stk msg : String) (err : Option String) (attrs : List Attr)
    (hl : l.minLevel = Level.info)
    (hb : ∀ a ∈ l.boundAttrs, a.key ≠ "stack")
    (ha : ∀ a ∈ attrs, a.key ≠ "stack") :
    (l.Error now stk msg err attrs).2 = false ∧
    ((l.Error now stk msg err attrs).1).isSome = true ∧
    ∀ r, (l.Error now stk msg err attrs).1 = some r →
      ∀ a ∈ r.attrs, a.key ≠ "stack" := by
  have hdbg : l.enabled Context.background Level.debug = false := by
    unfold Logger.enabled
    rw [hl]
    decide
  cases err with
  | none =>
    rw [Error_none]
    refine ⟨rfl, logAttrs_error_isSome l now msg attrs, ?_⟩
    intro r hr a hamem
    rcases List.mem_append.mp (mem_of_mem_logAttrs hr a hamem) with hmem | hmem
    · exact hb a hmem
    · exact ha a hmem
  | some e =>
    rw [Error_some, hdbg, if_neg Bool.false_ne_true]
    refine ⟨rfl, logAttrs_error_isSome l now msg _, ?_⟩
    intro r hr a hamem
    rcases List.mem_append.mp (mem_of_mem_logAttrs hr a hamem) with hmem | hmem
    · exact hb a hmem
    · rcases List.mem_append.mp hmem with hmem2 | hmem2
      · exact ha a hmem2
      · rw [List.mem_singleton.mp hmem2]
        simp

/-- C2 witness: a production logger at minimum level Info logging a non-nil
error does not run the stack-capture branch. -/
theorem info_level_no_stack_witness :
    (Logger.Error (New "production" Level.info) "t0" "g" "m" (some "boom")
      []).2 = false := by
  exact (info_level_error_never_captures_stack (New "production" Level.info)
    "t0" "g" "m" (some "boom") [] rfl
    (by intro a hmem; cases hmem) (by intro a hmem; cases hmem)).1

/-- C3: on a logger whose minimum level is Debug, every Error call emits a
record, and that record carries a non-empty `stack` attribute exactly when
err is non-nil. `stk` is the text `runtime.Stack` wrote, which is never
empty (the Go runtime always writes at least the goroutine header); the
bound and call-site attributes are assumed not to use the key "stack"
themselves, which the package's own combinators never produce. -/
theorem debug_level_error_stack_iff (l : Logger) (now stk msg : String)
    (err : Option String) (attrs : List Attr)
    (hl : l.minLevel = Level.debug) (hstk : stk ≠ "")
    (hb : ∀ a ∈ l.boundAttrs, a.key ≠ "stack")
    (ha : ∀ a ∈ attrs, a.key ≠ "stack") :
    ((l.Error now stk msg err attrs).1).isSome = true ∧
    ∀ r, (l.Error now stk msg err attrs).1 = some r →
      ((∃ s, Attr.mk "stack" s ∈ r.attrs ∧ s ≠ "") ↔ err ≠ none) := by
  have hdbg : l.enabled Context.background Level.debug = true := by
    unfold Logger.enabled
    rw [hl]
    decide
  cases err with
  | none =>
    rw [Error_none]
    refine ⟨logAttrs_error_isSome l now msg attrs, ?_⟩
    intro r hr
    constructor
    · rintro ⟨s, hmem, -⟩
      exfalso
      rcases List.mem_append.mp (mem_of_mem_logAttrs hr _ hmem) with h2 | h2
      · exact hb _ h2 rfl
      · exact ha _ h2 rfl
    · intro hcontra
      exact absurd rfl hcontra
  | some e =>
    rw [Error_some, hdbg, if_pos rfl]
    refine ⟨logAttrs_error_isSome l now msg _, ?_⟩
    intro r hr
    constructor
    · intro _ hcontra
      exact Option.noConfusion hcontra
    · intro _
      refine ⟨stk, ?_, hstk⟩
      unfold Logger.logAttrs at hr
      split at hr
      · obtain rfl := Option.some.inj hr
        refine mem_filterMap_keepAttr.mpr ⟨?_, keepAttr_of_key_ne (by simp)⟩
        simp
      · exact Option.noConfusion hr

/-- C3 witness: a logger at minimum level Debug logging a non-nil error on
concrete inputs emits a record, with the hypotheses discharged concretely. -/
theorem debug_level_stack_witness :
    ((Logger.Error (New "production" Level.debug) "t0" "goroutine 1" "m"
      (some "boom") []).1).isSome = true := by
  exact (debug_level_error_stack_iff (New "production" Level.debug) "t0"
    "goroutine 1" "m" (some "boom") [] rfl (by decide)
    (by intro a hmem; cases hmem) (by intro a hmem; cases hmem)).1

/-! Claim C4: Fatal logs like Error and then exits with status 1. -/

/-- C4: Fatal produces exactly the record Error would produce with the same
arguments (including the same stack-capture behaviour), then terminates the
process with exit status 1; the record, when emitted, is at error level.
Termination is unconditional, so Fatal never returns to the caller. -/
theorem fatal_logs_then_exits_one (l : Logger) (now stk msg : String)
    (err : Option String) (attrs : List Attr) :
    (l.Fatal now stk msg err attrs).record = (l.Error now stk msg err attrs).1 ∧
    (l.Fatal now stk msg err attrs).stackCaptured =
      (l.Error now stk msg err attrs).2 ∧
    (l.Fatal now stk msg err attrs).exitCode = some 1 ∧
    ∀ r, (l.Fatal now stk msg err attrs).record = some r →
      r.level = Level.error := by
  refine ⟨rfl, rfl, rfl, ?_⟩
  intro r hr
  have hr2 : (l.Error now stk msg err attrs).1 = some r := hr
  cases err with
  | none =>
    rw [Error_none] at hr2
    exact logAttrs_level hr2
  | some e =>
    rw [Error_some] at hr2
    by_cases hdbg : l.enabled Context.background Level.debug = true
    · rw [hdbg, if_pos rfl] at hr2
      exact logAttrs_level hr2
    · rw [Bool.not_eq_true] at hdbg
      rw [hdbg, if_neg Bool.false_ne_true] at hr2
      exact logAttrs_level hr2

/-- C4 witness: a concrete Fatal call exits with status 1 and its emitted
record is at error level. -/
theorem fatal_exits_one_witness :
    (Logger.Fatal (New "production" Level.info) "t0" "g" "boom" (some "e")
      []).exitCode = some 1 ∧
    (Record.mk (some "t0") Level.error "boom" [Attr.mk "error" "e"]).level =
      Level.error := by
  have h := fatal_logs_then_exits_one (New "production" Level.info) "t0" "g"
    "boom" (some "e") []
  exact ⟨h.2.2.1, h.2.2.2 _ (by rfl)⟩

/-! Claims C5 and C6: request-id context propagation. -/

/-- C5: the context and the wrapper returned by WithRequestID agree — the
identifier GetRequestID extracts from the derived context is exactly the
identifier the derived wrapper binds as its `request_id` attribute. `uuid`
stands for the freshly generated value of `uuid.New().String()`. -/
theorem with_request_id_roundtrip (l : Logger) (ctx : Context)
    (uuid : String) :
    GetRequestID (l.WithRequestID ctx uuid).1 = uuid ∧
    (l.WithRequestID ctx uuid).2.boundAttrs =
      l.boundAttrs ++ [Attr.mk "request_id" uuid] := by
  constructor
  · show GetRequestID ((RequestIDKey, CtxVal.str uuid) :: ctx) = uuid
    unfold GetRequestID
    rw [Context.value_cons, if_pos rfl]
  · rfl

/-- C6: GetRequestID is total and type-safe — it returns the empty string
when the key was never set and when the stored value is not a string, and a
value a caller stores under the bare string key "request_id" is invisible
to it, because the lookup key is of the distinct unexported `ctxKey` type. -/
theorem get_request_id_degrades_to_empty :
    (∀ ctx : Context, ctx.value RequestIDKey = none → GetRequestID ctx = "") ∧
    (∀ (ctx : Context) (n : Nat),
      ctx.value RequestIDKey = some (CtxVal.other n) → GetRequestID ctx = "") ∧
    (∀ (ctx : Context) (v : CtxVal),
      GetRequestID (ctx.withValue (CtxKey.stringKey "request_id") v) =
        GetRequestID ctx) := by
  refine ⟨?_, ?_, ?_⟩
  · intro ctx h
    unfold GetRequestID
    rw [h]
  · intro ctx n h
    unfold GetRequestID
    rw [h]
  · intro ctx v
    show GetRequestID ((CtxKey.stringKey "request_id", v) :: ctx) =
      GetRequestID ctx
    unfold GetRequestID
    rw [Context.value_cons, if_neg]
    intro hcontra
    exact CtxKey.noConfusion hcontra

/-- C6 witness: a bare-string "request_id" entry on the background context
is invisible and lookup degrades to the empty string. -/
theorem get_request_id_degrades_witness :
    GetRequestID (Context.withValue Context.background
      (CtxKey.stringKey "request_id") (CtxVal.str "abc")) = "" := by
  have h := get_request_id_degrades_to_empty
  rw [h.2.2 Context.background (CtxVal.str "abc")]
  exact h.1 Context.background rfl

/-! Claim C7: derivation is monotone and non-destructive. -/

/-- C7: each derivation combinator (WithComponent, WithOperation,
WithRequestID) produces a wrapper whose bound-attribute list is the
ancestor's list extended by one attribute — so every ancestor attribute
survives into the derived wrapper — and preserves the environment,
encoding, and minimum level. The receiver itself is a pure value that the
operation only reads, so it is left unchanged. -/
theorem derivation_is_monotone (l : Logger) (c o : String) (ctx : Context)
    (uuid : String) :
    ((l.WithComponent c).boundAttrs =
        l.boundAttrs ++ [Attr.mk "component" c] ∧
      (l.WithComponent c).env = l.env ∧
      (l.WithComponent c).encoding = l.encoding ∧
      (l.WithComponent c).minLevel = l.minLevel ∧
      ∀ a ∈ l.boundAttrs, a ∈ (l.WithComponent c).boundAttrs) ∧
    ((l.WithOperation o).boundAttrs =
        l.boundAttrs ++ [Attr.mk "operation" o] ∧
      (l.WithOperation o).env = l.env ∧
      (l.WithOperation o).encoding = l.encoding ∧
      (l.WithOperation o).minLevel = l.minLevel ∧
      ∀ a ∈ l.boundAttrs, a ∈ (l.WithOperation o).boundAttrs) ∧
    ((l.WithRequestID ctx uuid).2.boundAttrs =
        l.boundAttrs ++ [Attr.mk "request_id" uuid] ∧
      (l.WithRequestID ctx uuid).2.env = l.env ∧
      (l.WithRequestID ctx uuid).2.encoding = l.encoding ∧
      (l.WithRequestID ctx uuid).2.minLevel = l.minLevel ∧
      ∀ a ∈ l.boundAttrs, a ∈ (l.WithRequestID ctx uuid).2.boundAttrs) := by
  refine ⟨⟨rfl, rfl, rfl, rfl, ?_⟩, ⟨rfl, rfl, rfl, rfl, ?_⟩,
    ⟨rfl, rfl, rfl, rfl, ?_⟩⟩ <;>
    exact fun a hmem => List.mem_append_left _ hmem

/-- C7 witness: an attribute bound by an ancestor is still bound after a
further derivation, on a concrete chain. -/
theorem derivation_monotone_witness :
    Attr.mk "component" "uploader" ∈
      (((New "production" Level.info).WithComponent
        "uploader").WithOperation "resize").boundAttrs := by
  exact ((derivation_is_monotone
    ((New "production" Level.info).WithComponent "uploader") "x" "resize"
    Context.background "u").2.1).2.2.2.2 (Attr.mk "component" "uploader")
    (by simp [New, Logger.WithComponent, Logger.With])

/-! Claim C8: attachment order does not matter for the emitted set. -/

/-- C8: provided no attached attribute uses the reserved key "time" (the
package's combinators never produce one), a record emitted after attaching
`component` then `operation` carries exactly the union of the bound,
component, operation, and call-site attributes, and attaching the two in
the other order emits the same attribute set — the two records differ at
most in the order of those two attributes and agree on every field. -/
theorem attachment_order_irrelevant (l : Logger) (c o now msg : String)
    (lv : Level) (attrs : List Attr)
    (hb : ∀ a ∈ l.boundAttrs, a.key ≠ "time")
    (ha : ∀ a ∈ attrs, a.key ≠ "time") :
    ∀ r1, ((l.WithComponent c).WithOperation o).logAttrs now lv msg attrs =
        some r1 →
      r1.attrs = l.boundAttrs ++
        [Attr.mk "component" c, Attr.mk "operation" o] ++ attrs ∧
      ∃ r2, ((l.WithOperation o).WithComponent c).logAttrs now lv msg attrs =
          some r2 ∧
        r2.attrs = l.boundAttrs ++
          [Attr.mk "operation" o, Attr.mk "component" c] ++ attrs ∧
        List.Perm r1.attrs r2.attrs ∧
        r1.time = r2.time ∧ r1.level = r2.level ∧ r1.msg = r2.msg := by
  intro r1 h1
  have hco : ∀ a ∈ (l.boundAttrs ++
      [Attr.mk "component" c, Attr.mk "operation" o]) ++ attrs,
      a.key ≠ "time" := by
    intro a hmem
    rcases List.mem_append.mp hmem with h2 | h2
    · rcases List.mem_append.mp h2 with h3 | h3
      · exact hb a h3
      · rcases List.mem_cons.mp h3 with h4 | h4
        · rw [h4]; simp
        · rw [List.mem_singleton.mp h4]; simp
    · exact ha a h2
  have hoc : ∀ a ∈ (l.boundAttrs ++
      [Attr.mk "operation" o, Attr.mk "component" c]) ++ attrs,
      a.key ≠ "time" := by
    intro a hmem
    rcases List.mem_append.mp hmem with h2 | h2
    · rcases List.mem_append.mp h2 with h3 | h3
      · exact hb a h3
      · rcases List.mem_cons.mp h3 with h4 | h4
        · rw [h4]; simp
        · rw [List.mem_singleton.mp h4]; simp
    · exact ha a h2
  unfold Logger.logAttrs at h1 ⊢
  split at h1
  case isTrue henb =>
    obtain rfl := Option.some.inj h1
    constructor
    · show (((l.WithComponent c).WithOperation o).boundAttrs ++
          attrs).filterMap _ = _
      rw [show ((l.WithComponent c).WithOperation o).boundAttrs =
          l.boundAttrs ++ [Attr.mk "component" c, Attr.mk "operation" o]
        from by simp [Logger.WithComponent, Logger.WithOperation, Logger.With]]
      exact filterMap_keepAttr_id hco
    · have henb2 : ((l.WithOperation o).WithComponent c).enabled
          Context.background lv = true := henb
      rw [if_pos henb2]
      refine ⟨_, rfl, ?_, ?_, rfl, rfl, rfl⟩
      · show (((l.WithOperation o).WithComponent c).boundAttrs ++
            attrs).filterMap _ = _
        rw [show ((l.WithOperation o).WithComponent c).boundAttrs =
            l.boundAttrs ++ [Attr.mk "operation" o, Attr.mk "component" c]
          from by simp [Logger.WithComponent, Logger.WithOperation,
            Logger.With]]
        exact filterMap_keepAttr_id hoc
      · show List.Perm ((((l.WithComponent c).WithOperation o).boundAttrs ++
            attrs).filterMap _) _
        rw [show ((l.WithComponent c).WithOperation o).boundAttrs =
            l.boundAttrs ++ [Attr.mk "component" c, Attr.mk "operation" o]
          from by simp [Logger.WithComponent, Logger.WithOperation,
            Logger.With],
          show ((l.WithOperation o).WithComponent c).boundAttrs =
            l.boundAttrs ++ [Attr.mk "operation" o, Attr.mk "component" c]
          from by simp [Logger.WithComponent, Logger.WithOperation,
            Logger.With]]
        rw [filterMap_keepAttr_id hco, filterMap_keepAttr_id hoc]
        refine List.Perm.append ?_ (List.Perm.refl attrs)
        refine List.Perm.append_left l.boundAttrs ?_
        exact List.Perm.swap (Attr.mk "operation" o) (Attr.mk "component" c) []
  case isFalse => exact Option.noConfusion h1

/-- C8 witness: the component/operation attachment evaluated on a concrete
logger, with the no-"time"-key hypotheses discharged on empty lists. -/
theorem attachment_order_witness :
    (Record.mk (some "t0") Level.info "m"
      [Attr.mk "component" "u", Attr.mk "operation" "r"]).attrs =
      ([] : List Attr) ++
        [Attr.mk "component" "u", Attr.mk "operation" "r"] ++ [] := by
  exact (attachment_order_irrelevant (New "production" Level.info) "u" "r"
    "t0" "m" Level.info [] (by intro a hmem; cases hmem)
    (by intro a hmem; cases hmem) _ (by rfl)).1

/-! Claim C9: emission does not read the request-scoped context. -/

/-- C9: two Error (or Fatal) calls that differ only in the caller's
request-scoped context produce identical outcomes, and the level-enablement
check itself is insensitive to the context — Error and Fatal use the fixed
background context internally, so record content, stack-capture behaviour,
and suppression depend only on the wrapper and its sink configuration. -/
theorem emission_ignores_request_context (ctx1 ctx2 : Context) (l : Logger)
    (now stk msg : String) (err : Option String) (attrs : List Attr)
    (lv : Level) :
    errorRun ctx1 l now stk msg err attrs =
      errorRun ctx2 l now stk msg err attrs ∧
    fatalRun ctx1 l now stk msg err attrs =
      fatalRun ctx2 l now stk msg err attrs ∧
    l.enabled ctx1 lv = l.enabled ctx2 lv :=
  ⟨rfl, rfl, rfl⟩

/-! Claim C10: a nil error adds no attributes. -/

/-- C10: with a nil err, Error forwards exactly the caller-supplied
attributes to the emission — no `error` and no `stack` attribute is added
and the stack-capture branch does not run, whatever the configured minimum
level — so the emitted record's attribute list is the bound attributes
followed by exactly the caller's extras, each passed through the handler's
ReplaceAttr closure. -/
theorem nil_error_adds_no_attributes (l : Logger) (now stk msg : String)
    (attrs : List Attr) :
    l.Error now stk msg none attrs =
      (l.logAttrs now Level.error msg attrs, false) ∧
    ∀ r, (l.Error now stk msg none attrs).1 = some r →
      r.attrs = (l.boundAttrs ++ attrs).filterMap (keepAttr l.env) := by
  refine ⟨Error_none l now stk msg attrs, ?_⟩
  intro r hr
  rw [Error_none] at hr
  unfold Logger.logAttrs at hr
  split at hr
  · obtain rfl := Option.some.inj hr
    rfl
  · exact Option.noConfusion hr

/-- C10 witness: a debug-enabled development logger logging a nil error on
concrete inputs adds nothing to the caller's attribute list. -/
theorem nil_error_witness :
    Logger.Error (New "development" Level.debug) "t0" "g" "m" none
        [Attr.mk "k" "v"] =
      ((New "development" Level.debug).logAttrs "t0" Level.error "m"
        [Attr.mk "k" "v"], false) ∧
    (Record.mk none Level.error "m" [Attr.mk "k" "v"]).attrs =
      (([] : List Attr) ++ [Attr.mk "k" "v"]).filterMap
        (keepAttr "development") := by
  have h := nil_error_adds_no_attributes (New "development" Level.debug)
    "t0" "g" "m" [Attr.mk "k" "v"]
  exact ⟨h.1, h.2 _ (by rfl)⟩

end UploadService
